import Mathlib

/-!
Shallow embedding of the client-side task-state synchronization engine of the
Nailit SprintBoard application (source: `src/types`, `src/lib/api.ts`,
`src/contexts/TaskContext.tsx`, `src/components/KanbanBoard.tsx`).

Conventions of the embedding:
* TypeScript string-literal enums become Lean inductives
  (`'in-progress'` ↦ `Status.inProgress`).
* A remote call (`api.updateTask` etc.) is modelled by passing its outcome as
  an `Except String _` value: `Except.ok` is a resolved promise, `Except.error e`
  a rejected one with normalized message `e`.  The attempts a retried operation
  makes are modelled as a function `Nat → Except String α` from the attempt
  index to that attempt's outcome.
* `Math.random`-driven nondeterminism (`shouldFail`) is modelled by a `Bool`
  parameter saying whether the 2% branch was taken.
* JavaScript object spread `{ ...task, ...updates }` with
  `updates : Partial<Task>` is modelled by `TaskUpdates`, a record of `Option`
  fields, merged into a `Task` by `mergeTask` (an absent / `none` field leaves
  the task's field unchanged, exactly as spread does for absent keys).
* Wall-clock delays (`await delay(ms)`) are recorded as data (the list of
  waited durations) instead of being performed.
-/

namespace SprintBoard

/-- `export type Priority = 'low' | 'medium' | 'high'` (src/types). -/
inductive Priority where
  | low
  | medium
  | high
deriving DecidableEq, Repr

/-- `export type Status = 'todo' | 'in-progress' | 'done'` (src/types). -/
inductive Status where
  | todo
  | inProgress
  | done
deriving DecidableEq, Repr

/-- `interface Task` (src/types): id, title, description, priority, status,
createdAt (ISO timestamp kept as an opaque string). -/
structure Task where
  id : String
  title : String
  description : String
  priority : Priority
  status : Status
  createdAt : String
deriving DecidableEq, Repr

/-- `interface MoveHistory` (TaskContext.tsx): one recorded status transition. -/
structure MoveHistory where
  taskId : String
  fromStatus : Status
  toStatus : Status
  timestamp : Nat
deriving DecidableEq, Repr

/-- `interface TaskState` (TaskContext.tsx): the reducer state of the store. -/
structure TaskState where
  tasks : List Task
  loading : Bool
  error : Option String
  moveHistory : List MoveHistory
  retryCount : Nat
  lastErrorTime : Option Nat
deriving DecidableEq, Repr

/-- `Partial<Task>`: the `updates` payload of an UPDATE_TASK action.  A `none`
field is an absent key of the JavaScript object, skipped by object spread. -/
structure TaskUpdates where
  id : Option String := none
  title : Option String := none
  description : Option String := none
  priority : Option Priority := none
  status : Option Status := none
  createdAt : Option String := none
deriving DecidableEq, Repr

/-- `{ ...task, ...updates }`: every key present in `updates` overrides the
task's value, every absent key leaves it. -/
def mergeTask (t : Task) (u : TaskUpdates) : Task :=
  { id := u.id.getD t.id
    title := u.title.getD t.title
    description := u.description.getD t.description
    priority := u.priority.getD t.priority
    status := u.status.getD t.status
    createdAt := u.createdAt.getD t.createdAt }

/-- `type TaskAction` (TaskContext.tsx). -/
inductive TaskAction where
  | setLoading (b : Bool)
  | setError (e : Option String)
  | setTasks (ts : List Task)
  | addTask (t : Task)
  | updateTask (id : String) (updates : TaskUpdates)
  | deleteTask (id : String)
  | addMoveHistory (m : MoveHistory)
  | removeLastMove
  | incrementRetryCount
  | resetRetryCount
  | setLastErrorTime (n : Nat)

/-- `function taskReducer(state, action)` (TaskContext.tsx), case for case.
`moveHistory.slice(0, -1)` is `List.dropLast`; array spread append
`[...state.tasks, task]` is `++ [t]`. -/
def taskReducer (state : TaskState) (action : TaskAction) : TaskState :=
  match action with
  | .setLoading b => { state with loading := b }
  | .setError e => { state with error := e }
  | .setTasks ts =>
      { state with tasks := ts, loading := false, error := none, retryCount := 0 }
  | .addTask t => { state with tasks := state.tasks ++ [t] }
  | .updateTask id updates =>
      { state with
        tasks := state.tasks.map fun t =>
          if t.id = id then mergeTask t updates else t }
  | .deleteTask id =>
      { state with tasks := state.tasks.filter fun t => t.id ≠ id }
  | .addMoveHistory m =>
      { state with moveHistory := state.moveHistory ++ [m] }
  | .removeLastMove =>
      { state with moveHistory := state.moveHistory.dropLast }
  | .incrementRetryCount => { state with retryCount := state.retryCount + 1 }
  | .resetRetryCount => { state with retryCount := 0 }
  | .setLastErrorTime n => { state with lastErrorTime := some n }

namespace Api

/-- `const MAX_RETRIES = 2` (api.ts). -/
def MAX_RETRIES : Nat := 2

/-- `const RETRY_DELAY = 1000` (api.ts), milliseconds. -/
def RETRY_DELAY : Nat := 1000

/-- The body of `withRetry`'s `for` loop (api.ts lines 57-70), from attempt
index `attempt` on.  Returns the settled result, the number of invocations of
`operation` performed, and the list of back-off delays awaited between
consecutive attempts.  The source loop exits by throwing when
`attempt === maxRetries`; since `attempt` starts at 0 and increases by 1, the
loop invariant `attempt ≤ maxRetries` holds, under which that test is the
negation of `attempt < maxRetries` used here. -/
def withRetryFrom (op : Nat → Except String α) (maxRetries attempt : Nat) :
    Except String α × Nat × List Nat :=
  match op attempt with
  | .ok a => (.ok a, 1, [])
  | .error e =>
      if _h : attempt < maxRetries then
        let r := withRetryFrom op maxRetries (attempt + 1)
        (r.1, r.2.1 + 1, RETRY_DELAY * 2 ^ attempt :: r.2.2)
      else
        (.error e, 1, [])
termination_by maxRetries - attempt

/-- `const withRetry = async (operation, maxRetries = MAX_RETRIES)` (api.ts):
run the loop from attempt 0. -/
def withRetry (op : Nat → Except String α) (maxRetries : Nat) :
    Except String α × Nat × List Nat :=
  withRetryFrom op maxRetries 0

/-- `api.updateTask(id, data)` (api.ts lines 119-133): first the
`shouldFail()` guard (taken branch passed as `simFail`), which throws
`ApiError('Simulated API failure', 500)` BEFORE the retry wrapper is entered;
otherwise the PATCH attempt sequence `op` runs under `withRetry` with the
default budget `MAX_RETRIES`. -/
def updateTask (simFail : Bool) (op : Nat → Except String Task) :
    Except String Task :=
  if simFail then .error "Simulated API failure"
  else (withRetry op MAX_RETRIES).1

/-- `interface CreateTaskData` (src/types). -/
structure CreateTaskData where
  title : String
  description : String
  priority : Priority
deriving DecidableEq, Repr

/-- The JSON body `api.createTask` POSTs to `/tasks`.  Fields that the client
may or may not include are `Option`: `none` means the key is absent from the
request and would be left for the server to assign. -/
structure CreateTaskPayload where
  title : String
  description : String
  priority : Priority
  id : Option String
  status : Option Status
  createdAt : Option String
deriving DecidableEq, Repr

/-- The request body built by `api.createTask` (api.ts lines 105-110):
`{ ...data, id: crypto.randomUUID(), status: 'todo', createdAt: new Date().toISOString() }`.
The generated UUID and the current timestamp are passed in as `uuid` / `now`. -/
def createTaskPayload (data : CreateTaskData) (uuid now : String) :
    CreateTaskPayload :=
  { title := data.title
    description := data.description
    priority := data.priority
    id := some uuid
    status := some Status.todo
    createdAt := some now }

end Api

/-- One invocation of `api.updateTask(taskId, { status })` recorded as data,
for counting the remote calls an operation issues. -/
structure RemoteCall where
  taskId : String
  status : Status
deriving DecidableEq, Repr

namespace Store

/-- `updateTaskStatus(id, newStatus)` (TaskContext.tsx lines 154-183).
`remote` is the settled outcome of `await api.updateTask(id, { status: newStatus })`;
`now` is `Date.now()`.  Absent task: early return.  Present: optimistic
UPDATE_TASK, push ADD_MOVE_HISTORY; on success SET_ERROR null; on failure
roll back the status, REMOVE_LAST_MOVE, SET_ERROR with the error's message. -/
def updateTaskStatus (s : TaskState) (id : String) (newStatus : Status)
    (now : Nat) (remote : Except String Task) : TaskState :=
  match s.tasks.find? (fun t => decide (t.id = id)) with
  | none => s
  | some task =>
      let oldStatus := task.status
      let s1 := taskReducer s (.updateTask id { status := some newStatus })
      let s2 := taskReducer s1
        (.addMoveHistory ⟨id, oldStatus, newStatus, now⟩)
      match remote with
      | .ok _ => taskReducer s2 (.setError none)
      | .error e =>
          let s3 := taskReducer s2 (.updateTask id { status := some oldStatus })
          let s4 := taskReducer s3 .removeLastMove
          taskReducer s4 (.setError (some e))

/-- `createTask(data)` (TaskContext.tsx lines 142-152): pessimistic — the task
returned by `await api.createTask(data)` is ADD_TASKed and the error cleared
only on success; on failure only SET_ERROR fires (and the error re-throws). -/
def createTask (s : TaskState) (remote : Except String Task) : TaskState :=
  match remote with
  | .ok newTask =>
      taskReducer (taskReducer s (.addTask newTask)) (.setError none)
  | .error e => taskReducer s (.setError (some e))

/-- `updateTask(id, data)` (TaskContext.tsx lines 185-195): pessimistic — the
remote call runs first; only on success is the returned task spread over the
local one via UPDATE_TASK (a full `Task`, so every field is present). -/
def updateTask (s : TaskState) (id : String) (remote : Except String Task) :
    TaskState :=
  match remote with
  | .ok updatedTask =>
      let s1 := taskReducer s
        (.updateTask id
          { id := some updatedTask.id
            title := some updatedTask.title
            description := some updatedTask.description
            priority := some updatedTask.priority
            status := some updatedTask.status
            createdAt := some updatedTask.createdAt })
      taskReducer s1 (.setError none)
  | .error e => taskReducer s (.setError (some e))

/-- `deleteTask(id)` (TaskContext.tsx lines 197-207): pessimistic —
DELETE_TASK and error-clear only after the remote delete succeeds; on failure
only SET_ERROR fires. -/
def deleteTask (s : TaskState) (id : String) (remote : Except String Unit) :
    TaskState :=
  match remote with
  | .ok _ =>
      taskReducer (taskReducer s (.deleteTask id)) (.setError none)
  | .error e => taskReducer s (.setError (some e))

/-- `undoLastMove()` (TaskContext.tsx lines 209-224): no-op on empty history;
otherwise read the top entry (`moveHistory[length - 1]` = `getLast?`),
optimistically set the task back to `fromStatus`, REMOVE_LAST_MOVE, and fire
`api.updateTask` whose rejection (`.catch`) only sets the fixed error message.
Returns the new state and the list of remote calls issued. -/
def undoLastMove (s : TaskState) (remote : Except String Task) :
    TaskState × List RemoteCall :=
  match s.moveHistory.getLast? with
  | none => (s, [])
  | some lastMove =>
      let s1 := taskReducer s
        (.updateTask lastMove.taskId { status := some lastMove.fromStatus })
      let s2 := taskReducer s1 .removeLastMove
      let s3 :=
        match remote with
        | .ok _ => s2
        | .error _ =>
            taskReducer s2 (.setError (some "Failed to undo move on server"))
      (s3, [⟨lastMove.taskId, lastMove.fromStatus⟩])

end Store

namespace Board

/-- `priorityOrder` inside `tasksByStatus` (KanbanBoard.tsx line 80):
`{ high: 3, medium: 2, low: 1 }`. -/
def priorityOrder : Priority → Nat
  | .high => 3
  | .medium => 2
  | .low => 1

/-- Insertion step of the stable descending sort that
`taskList.sort((a, b) => priorityOrder[b.priority] - priorityOrder[a.priority])`
performs (KanbanBoard.tsx line 81; JavaScript `Array.prototype.sort` with a
comparator is a stable sort in comparator order): `t` is placed before the
first element of strictly lower priority, after equal ones. -/
def insertByPriority (t : Task) : List Task → List Task
  | [] => [t]
  | x :: xs =>
      if priorityOrder x.priority < priorityOrder t.priority then
        t :: x :: xs
      else
        x :: insertByPriority t xs

/-- `sortByPriority(taskList)` (KanbanBoard.tsx lines 79-82) as a stable
insertion sort by descending `priorityOrder`. -/
def sortByPriority (l : List Task) : List Task :=
  l.foldr insertByPriority []

/-- One column of `tasksByStatus` (KanbanBoard.tsx lines 75-96): the tasks
whose status matches the column, in store order (the `forEach` grouping),
then sorted by priority. -/
def tasksByStatus (tasks : List Task) (column : Status) : List Task :=
  sortByPriority (tasks.filter fun t => t.status = column)

end Board

/-! ### Observation helpers and concrete fixtures -/

/-- The status of the (first) task carrying a given id — the observable that
the rollback and undo claims speak about. -/
def statusOf (tasks : List Task) (id : String) : Option Status :=
  (tasks.find? fun t => decide (t.id = id)).map Task.status

/-- A concrete low-priority todo task. -/
def taskLowEx : Task :=
  { id := "a", title := "low task", description := "", priority := .low,
    status := .todo, createdAt := "2026-01-01" }

/-- A concrete high-priority todo task. -/
def taskHighEx : Task :=
  { id := "b", title := "high task", description := "", priority := .high,
    status := .todo, createdAt := "2026-01-01" }

/-- A concrete medium-priority todo task. -/
def taskMedEx : Task :=
  { id := "c", title := "medium task", description := "", priority := .medium,
    status := .todo, createdAt := "2026-01-01" }

/-- A concrete store state holding one task and an empty move history. -/
def sampleState : TaskState :=
  { tasks := [taskLowEx], loading := false, error := none, moveHistory := [],
    retryCount := 0, lastErrorTime := none }

/-- A concrete store state right after a successful move of `taskLowEx` from
todo to in-progress. -/
def movedState : TaskState :=
  { tasks := [{ taskLowEx with status := .inProgress }], loading := false,
    error := none, moveHistory := [⟨"a", .todo, .inProgress, 5⟩],
    retryCount := 0, lastErrorTime := none }

/-- A concrete store state whose top history entry references a task id that
is no longer in the task list. -/
def orphanState : TaskState :=
  { tasks := [taskHighEx], loading := false, error := none,
    moveHistory := [⟨"ghost", .todo, .done, 1⟩], retryCount := 0,
    lastErrorTime := none }

/-! ### Shared lemmas about the reducer's task-list transformations -/

/-- Merging updates whose `id` key is absent leaves the task's id unchanged. -/
lemma mergeTask_id (t : Task) (u : TaskUpdates) (hu : u.id = none) :
    (mergeTask t u).id = t.id := by
  simp [mergeTask, hu]

/-- Merging a full task (every key present) replaces the task entirely. -/
lemma mergeTask_all_some (x t : Task) :
    mergeTask x
      { id := some t.id, title := some t.title,
        description := some t.description, priority := some t.priority,
        status := some t.status, createdAt := some t.createdAt } = t := rfl

/-- `find?` by id commutes with mapping an id-preserving transformation over
the list: UPDATE_TASK never changes which element a lookup hits. -/
lemma find?_map_id_preserving (g : Task → Task) (hg : ∀ t, (g t).id = t.id)
    (id : String) (l : List Task) :
    (l.map g).find? (fun t => decide (t.id = id))
      = (l.find? (fun t => decide (t.id = id))).map g := by
  induction l with
  | nil => rfl
  | cons x xs ih =>
      simp only [List.map_cons, List.find?_cons, hg x]
      cases h : decide (x.id = id) <;> simp [h, ih]

/-- Claim C4: on an empty move history `undoLastMove()` is a no-op — the
whole state (task list, history, loading flag, error value) is returned
unchanged and the list of issued remote calls is empty. -/
theorem undoLastMove_empty_noop (s : TaskState) (remote : Except String Task)
    (h : s.moveHistory = []) :
    Store.undoLastMove s remote = (s, []) := by
  simp [Store.undoLastMove, h]

/-- Witness for the empty-history undo theorem at a concrete state. -/
theorem undoLastMove_empty_noop_witness :
    Store.undoLastMove sampleState (Except.ok taskHighEx) = (sampleState, []) :=
  undoLastMove_empty_noop sampleState (Except.ok taskHighEx) rfl

/-- Claim C7: the field-update operation is pessimistic.  On remote failure
the task list and the move history are untouched and only the error is set;
on remote success the returned task replaces the local one (the patch is
applied only then) and the error is cleared. -/
theorem updateTask_pessimistic (s : TaskState) (id : String) :
    (∀ e, (Store.updateTask s id (Except.error e)).tasks = s.tasks ∧
        (Store.updateTask s id (Except.error e)).moveHistory = s.moveHistory ∧
        (Store.updateTask s id (Except.error e)).error = some e) ∧
    (∀ t, (Store.updateTask s id (Except.ok t)).tasks
          = s.tasks.map (fun x => if x.id = id then t else x) ∧
        (Store.updateTask s id (Except.ok t)).moveHistory = s.moveHistory ∧
        (Store.updateTask s id (Except.ok t)).error = none) := by
  constructor
  · intro e
    simp [Store.updateTask, taskReducer]
  · intro t
    simp [Store.updateTask, taskReducer, mergeTask_all_some]

/-! ### Lemmas about the board's priority sort -/

/-- Inserting a task permutes consing it in front. -/
lemma insertByPriority_perm (t : Task) (l : List Task) :
    (Board.insertByPriority t l).Perm (t :: l) := by
  induction l with
  | nil => exact List.Perm.refl _
  | cons x xs ih =>
      by_cases h :
          Board.priorityOrder x.priority < Board.priorityOrder t.priority
      · simp [Board.insertByPriority, h]
      · simp only [Board.insertByPriority, h, if_false]
        exact (ih.cons x).trans (List.Perm.swap t x xs)

/-- Inserting into a descending-priority list keeps it descending. -/
lemma insertByPriority_pairwise (t : Task) {l : List Task}
    (h : l.Pairwise
      (fun a b => Board.priorityOrder b.priority ≤ Board.priorityOrder a.priority)) :
    (Board.insertByPriority t l).Pairwise
      (fun a b => Board.priorityOrder b.priority ≤ Board.priorityOrder a.priority) := by
  induction l with
  | nil => simp [Board.insertByPriority]
  | cons x xs ih =>
      rcases List.pairwise_cons.mp h with ⟨hx, hxs⟩
      by_cases hc :
          Board.priorityOrder x.priority < Board.priorityOrder t.priority
      · simp only [Board.insertByPriority, hc, if_true]
        refine List.pairwise_cons.mpr ⟨?_, h⟩
        intro b hb
        rcases List.mem_cons.mp hb with rfl | hb'
        · exact le_of_lt hc
        · exact le_trans (hx b hb') (le_of_lt hc)
      · simp only [Board.insertByPriority, hc, if_false]
        refine List.pairwise_cons.mpr ⟨?_, ih hxs⟩
        intro b hb
        have hmem := (insertByPriority_perm t xs).mem_iff.mp hb
        rcases List.mem_cons.mp hmem with rfl | hb'
        · exact le_of_not_lt hc
        · exact hx b hb'

/-- The board's sort permutes its input. -/
lemma sortByPriority_perm (l : List Task) :
    (Board.sortByPriority l).Perm l := by
  induction l with
  | nil => exact List.Perm.refl _
  | cons x xs ih =>
      exact (insertByPriority_perm x (Board.sortByPriority xs)).trans (ih.cons x)

/-- The board's sort output is descending in `priorityOrder`. -/
lemma sortByPriority_pairwise (l : List Task) :
    (Board.sortByPriority l).Pairwise
      (fun a b => Board.priorityOrder b.priority ≤ Board.priorityOrder a.priority) := by
  induction l with
  | nil => simp [Board.sortByPriority]
  | cons x xs ih => exact insertByPriority_pairwise x ih

/-- Claim C9: each column's derived display order is a permutation of that
column's tasks in which priorities are non-increasing (every high before
every medium before every low); concretely, a column holding priorities
[low, high, medium] renders as [high, medium, low]. -/
theorem tasksByStatus_sorted_by_priority :
    (∀ (tasks : List Task) (column : Status),
        (Board.tasksByStatus tasks column).Perm
          (tasks.filter fun t => t.status = column) ∧
        (Board.tasksByStatus tasks column).Pairwise
          (fun a b =>
            Board.priorityOrder b.priority ≤ Board.priorityOrder a.priority)) ∧
    Board.tasksByStatus [taskLowEx, taskHighEx, taskMedEx] Status.todo
      = [taskHighEx, taskMedEx, taskLowEx] := by
  refine ⟨fun tasks column =>
    ⟨sortByPriority_perm _, sortByPriority_pairwise _⟩, ?_⟩
  decide

/-- An UPDATE_TASK whose payload has no `id` key never changes any task's id. -/
lemma updateTask_map_id (id : String) (u : TaskUpdates) (hu : u.id = none)
    (t : Task) :
    (if t.id = id then mergeTask t u else t).id = t.id := by
  by_cases h : t.id = id <;> simp [h, mergeTask_id _ _ hu]

/-- Claim C1: if a present task's status update fails remotely (after retry
exhaustion), the store rolls back completely — the task's status equals its
status before the operation, the move history has its previous length (the
just-pushed entry is popped), and the user-facing error is set to the
failure's message. -/
theorem updateTaskStatus_rollback_on_failure
    (s : TaskState) (id : String) (newStatus : Status) (now : Nat) (e : String)
    (task : Task)
    (hfind : s.tasks.find? (fun t => decide (t.id = id)) = some task) :
    statusOf (Store.updateTaskStatus s id newStatus now (Except.error e)).tasks id
        = statusOf s.tasks id ∧
    (Store.updateTaskStatus s id newStatus now (Except.error e)).moveHistory.length
        = s.moveHistory.length ∧
    (Store.updateTaskStatus s id newStatus now (Except.error e)).error = some e := by
  have hid : task.id = id := by
    have h := List.find?_some hfind
    simpa using h
  simp only [Store.updateTaskStatus, hfind, taskReducer]
  refine ⟨?_, ?_, trivial⟩
  · simp only [statusOf]
    rw [find?_map_id_preserving _ (updateTask_map_id id _ rfl),
      find?_map_id_preserving _ (updateTask_map_id id _ rfl), hfind]
    simp [mergeTask, hid]
  · simp [List.dropLast_concat]

/-- Witness for the rollback theorem: a failed move of the concrete task. -/
theorem updateTaskStatus_rollback_on_failure_witness :
    statusOf (Store.updateTaskStatus sampleState "a" .inProgress 5
        (Except.error "boom")).tasks "a"
        = statusOf sampleState.tasks "a" ∧
    (Store.updateTaskStatus sampleState "a" .inProgress 5
        (Except.error "boom")).moveHistory.length
        = sampleState.moveHistory.length ∧
    (Store.updateTaskStatus sampleState "a" .inProgress 5
        (Except.error "boom")).error = some "boom" :=
  updateTaskStatus_rollback_on_failure sampleState "a" .inProgress 5 "boom"
    taskLowEx (by decide)

/-- Claim C2: with non-empty history, `undoLastMove()` pops exactly the top
entry, locally sets the referenced task's status to that entry's
`fromStatus`, and issues exactly one remote update.  The task list, the
popped history and the issued calls are the same whatever the remote
outcome is; a remote failure additionally only sets the fixed error
message (the move is consumed, never inverted-and-pushed). -/
theorem undoLastMove_pops_and_reverts
    (s : TaskState) (m : MoveHistory) (remote : Except String Task)
    (hlast : s.moveHistory.getLast? = some m) :
    (Store.undoLastMove s remote).1.moveHistory = s.moveHistory.dropLast ∧
    (Store.undoLastMove s remote).1.tasks
        = s.tasks.map (fun t =>
            if t.id = m.taskId then
              mergeTask t { status := some m.fromStatus }
            else t) ∧
    (Store.undoLastMove s remote).2 = [⟨m.taskId, m.fromStatus⟩] ∧
    (∀ e, remote = Except.error e →
        (Store.undoLastMove s remote).1.error
          = some "Failed to undo move on server") := by
  simp only [Store.undoLastMove, hlast]
  cases remote with
  | ok t => simp [taskReducer]
  | error e => simp [taskReducer]

/-- Witness for the undo theorem: undoing the concrete recorded move while
the fire-and-forget remote call fails. -/
theorem undoLastMove_pops_and_reverts_witness :
    (Store.undoLastMove movedState (Except.error "down")).1.moveHistory
        = movedState.moveHistory.dropLast ∧
    (Store.undoLastMove movedState (Except.error "down")).1.tasks
        = movedState.tasks.map (fun t =>
            if t.id = "a" then mergeTask t { status := some .todo } else t) ∧
    (Store.undoLastMove movedState (Except.error "down")).2
        = [⟨"a", .todo⟩] ∧
    (∀ e, (Except.error e : Except String Task) = Except.error e →
        (Store.undoLastMove movedState (Except.error "down")).1.error
          = some "Failed to undo move on server") := by
  have h := undoLastMove_pops_and_reverts movedState ⟨"a", .todo, .inProgress, 5⟩
    (Except.error "down") rfl
  exact ⟨h.1, h.2.1, h.2.2.1, fun e _ => h.2.2.2 "down" rfl⟩

/-- Claim C10: if the top history entry references an id absent from the task
list, `undoLastMove()` still pops the entry, leaves the task list completely
unchanged (the status update to a missing id is the identity on the list),
and still issues its single remote call.  The embedding is a total function,
mirroring that the source indexes no missing element and throws nothing. -/
theorem undoLastMove_missing_task_safe
    (s : TaskState) (m : MoveHistory) (remote : Except String Task)
    (hlast : s.moveHistory.getLast? = some m)
    (hmiss : ∀ t ∈ s.tasks, t.id ≠ m.taskId) :
    (Store.undoLastMove s remote).1.tasks = s.tasks ∧
    (Store.undoLastMove s remote).1.moveHistory = s.moveHistory.dropLast ∧
    (Store.undoLastMove s remote).2 = [⟨m.taskId, m.fromStatus⟩] := by
  have htasks : ∀ (l : List Task), (∀ t ∈ l, t.id ≠ m.taskId) →
      l.map (fun t =>
        if t.id = m.taskId then mergeTask t { status := some m.fromStatus }
        else t) = l := by
    intro l hl
    induction l with
    | nil => rfl
    | cons x xs ih =>
        simp only [List.map_cons]
        rw [if_neg (hl x (List.mem_cons_self x xs)),
          ih (fun t ht => hl t (List.mem_cons_of_mem x ht))]
  simp only [Store.undoLastMove, hlast]
  cases remote with
  | ok t => simp [taskReducer, htasks s.tasks hmiss]
  | error e => simp [taskReducer, htasks s.tasks hmiss]

/-- Witness for the missing-task undo theorem at the concrete orphaned
state. -/
theorem undoLastMove_missing_task_safe_witness :
    (Store.undoLastMove orphanState (Except.ok taskHighEx)).1.tasks
        = orphanState.tasks ∧
    (Store.undoLastMove orphanState (Except.ok taskHighEx)).1.moveHistory
        = orphanState.moveHistory.dropLast ∧
    (Store.undoLastMove orphanState (Except.ok taskHighEx)).2
        = [⟨"ghost", .todo⟩] :=
  undoLastMove_missing_task_safe orphanState ⟨"ghost", .todo, .done, 1⟩
    (Except.ok taskHighEx) rfl (by decide)

/-! ### Lemmas about the retry loop -/

/-- The loop always invokes the operation at least once. -/
lemma withRetryFrom_count_pos {α : Type} (op : Nat → Except String α)
    (m a : Nat) : 1 ≤ (Api.withRetryFrom op m a).2.1 := by
  refine Api.withRetryFrom.induct op m
    (fun a => 1 ≤ (Api.withRetryFrom op m a).2.1) ?_ ?_ ?_ a
  · intro x v h
    rw [Api.withRetryFrom]
    simp [h]
  · intro x e h hlt ih
    rw [Api.withRetryFrom]
    simp only [h]
    simp [hlt]
  · intro x e h hlt
    rw [Api.withRetryFrom]
    simp [h, hlt]

/-- Starting at attempt `a`, the loop makes at most `m - a + 1` invocations. -/
lemma withRetryFrom_count_le {α : Type} (op : Nat → Except String α)
    (m a : Nat) : (Api.withRetryFrom op m a).2.1 ≤ m - a + 1 := by
  refine Api.withRetryFrom.induct op m
    (fun a => (Api.withRetryFrom op m a).2.1 ≤ m - a + 1) ?_ ?_ ?_ a
  · intro x v h
    rw [Api.withRetryFrom]
    simp [h]
  · intro x e h hlt ih
    rw [Api.withRetryFrom]
    simp only [h, hlt, dif_pos]
    omega
  · intro x e h hlt
    rw [Api.withRetryFrom]
    simp [h, hlt]

/-- If every attempt before `k` fails and attempt `k` succeeds (within the
budget), the loop returns attempt `k`'s value after exactly `k - a + 1`
invocations and makes no further one. -/
lemma withRetryFrom_success {α : Type} (op : Nat → Except String α)
    (m k : Nat) (v : α) (hk : k ≤ m) (hop : op k = Except.ok v) :
    ∀ a, a ≤ k → (∀ j, a ≤ j → j < k → (op j).isOk = false) →
      (Api.withRetryFrom op m a).1 = Except.ok v ∧
      (Api.withRetryFrom op m a).2.1 = k - a + 1 := by
  refine Api.withRetryFrom.induct op m
    (fun a => a ≤ k → (∀ j, a ≤ j → j < k → (op j).isOk = false) →
      (Api.withRetryFrom op m a).1 = Except.ok v ∧
      (Api.withRetryFrom op m a).2.1 = k - a + 1) ?_ ?_ ?_
  · intro x w h hak hprev
    rcases Nat.lt_or_ge x k with hxk | hxk
    · have hfalse := hprev x le_rfl hxk
      rw [h] at hfalse
      exact Bool.noConfusion hfalse
    · have hxk' : x = k := le_antisymm hak hxk
      subst hxk'
      rw [hop] at h
      rw [Api.withRetryFrom]
      simp [hop, ← Except.ok.inj h]
  · intro x e h hlt ih hak hprev
    have hxk : x < k := by
      rcases Nat.lt_or_ge x k with hxk | hxk
      · exact hxk
      · have : x = k := le_antisymm hak hxk
        subst this
        rw [hop] at h
        exact absurd h (by simp)
    have hrec := ih hxk (fun j haj hj => hprev j (le_of_lt (Nat.lt_of_lt_of_le (Nat.lt_succ_self x) (by omega))) hj)
    rw [Api.withRetryFrom]
    simp only [h, hlt, dif_pos]
    exact ⟨hrec.1, by rw [hrec.2]; omega⟩
  · intro x e h hlt hak hprev
    exfalso
    have hxm : x = m := by omega
    have hxk : x = k := by omega
    subst hxk
    rw [hop] at h
    exact absurd h (by simp)

/-- The delays awaited between consecutive attempts are the exponential
back-off series `RETRY_DELAY * 2 ^ attempt` for the attempts made. -/
lemma withRetryFrom_delays {α : Type} (op : Nat → Except String α)
    (m a : Nat) :
    (Api.withRetryFrom op m a).2.2
      = (List.range ((Api.withRetryFrom op m a).2.1 - 1)).map
          (fun i => Api.RETRY_DELAY * 2 ^ (a + i)) := by
  refine Api.withRetryFrom.induct op m
    (fun a => (Api.withRetryFrom op m a).2.2
      = (List.range ((Api.withRetryFrom op m a).2.1 - 1)).map
          (fun i => Api.RETRY_DELAY * 2 ^ (a + i))) ?_ ?_ ?_ a
  · intro x v h
    rw [Api.withRetryFrom]
    simp [h]
  · intro x e h hlt ih
    have hpos := withRetryFrom_count_pos op m (x + 1)
    obtain ⟨n, hn⟩ : ∃ n, (Api.withRetryFrom op m (x + 1)).2.1 = n + 1 :=
      ⟨(Api.withRetryFrom op m (x + 1)).2.1 - 1, by omega⟩
    rw [Api.withRetryFrom]
    simp only [h, hlt, dif_pos]
    rw [ih, hn]
    simp only [Nat.add_sub_cancel, List.range_succ_eq_map, List.map_cons,
      List.map_map, Nat.add_zero]
    congr 1
    apply List.map_congr_left
    intro i _
    have harg : x + 1 + i = x + Nat.succ i := by omega
    simp [Function.comp, harg]
  · intro x e h hlt
    rw [Api.withRetryFrom]
    simp [h, hlt]

/-- If every attempt up to the budget fails, the loop propagates the final
attempt's failure unchanged. -/
lemma withRetryFrom_exhausted {α : Type} (op : Nat → Except String α)
    (m : Nat) :
    ∀ a, a ≤ m → (∀ j, a ≤ j → j ≤ m → (op j).isOk = false) →
      (Api.withRetryFrom op m a).1 = op m := by
  refine Api.withRetryFrom.induct op m
    (fun a => a ≤ m → (∀ j, a ≤ j → j ≤ m → (op j).isOk = false) →
      (Api.withRetryFrom op m a).1 = op m) ?_ ?_ ?_
  · intro x v h ham hall
    have hfalse := hall x le_rfl ham
    rw [h] at hfalse
    exact Bool.noConfusion hfalse
  · intro x e h hlt ih ham hall
    rw [Api.withRetryFrom]
    simp only [h, hlt, dif_pos]
    exact ih hlt (fun j haj hj => hall j (by omega) hj)
  · intro x e h hlt ham hall
    have hxm : x = m := by omega
    rw [Api.withRetryFrom]
    simp only [h, dif_neg hlt]
    rw [hxm] at h
    exact h.symm

/-- Claim C3: the retry wrapper invokes the operation at most `N + 1` times;
a first success stops it and is returned (after `k + 1` invocations when
attempts `0..k-1` failed); the waits between consecutive attempts are
`RETRY_DELAY * 2 ^ attempt`; and when every attempt fails, the final
attempt's failure is propagated unchanged. -/
theorem withRetry_contract {α : Type} (op : Nat → Except String α)
    (maxRetries : Nat) :
    (Api.withRetry op maxRetries).2.1 ≤ maxRetries + 1 ∧
    (∀ k v, k ≤ maxRetries → (∀ j, j < k → (op j).isOk = false) →
        op k = Except.ok v →
        (Api.withRetry op maxRetries).1 = Except.ok v ∧
        (Api.withRetry op maxRetries).2.1 = k + 1) ∧
    (Api.withRetry op maxRetries).2.2
        = (List.range ((Api.withRetry op maxRetries).2.1 - 1)).map
            (fun i => Api.RETRY_DELAY * 2 ^ i) ∧
    ((∀ j, j ≤ maxRetries → (op j).isOk = false) →
        (Api.withRetry op maxRetries).1 = op maxRetries) := by
  refine ⟨?_, ?_, ?_, ?_⟩
  · have h := withRetryFrom_count_le op maxRetries 0
    simpa [Api.withRetry] using h
  · intro k v hk hprev hop
    have h := withRetryFrom_success op maxRetries k v hk hop 0 (Nat.zero_le k)
      (fun j _ hj => hprev j hj)
    simpa [Api.withRetry] using h
  · have h := withRetryFrom_delays op maxRetries 0
    simpa [Api.withRetry] using h
  · intro hall
    exact withRetryFrom_exhausted op maxRetries 0 (Nat.zero_le _)
      (fun j _ hj => hall j hj)

/-- A concrete attempt sequence: the first attempt fails transiently, every
later one succeeds. -/
def retryOpEx : Nat → Except String Nat :=
  fun j => if j = 0 then Except.error "transient" else Except.ok 7

/-- Witness for the retry contract: with budget 2 the concrete sequence
settles on the success of attempt 1 after exactly two invocations. -/
theorem withRetry_contract_witness :
    (Api.withRetry retryOpEx 2).1 = Except.ok 7 ∧
    (Api.withRetry retryOpEx 2).2.1 = 1 + 1 :=
  (withRetry_contract retryOpEx 2).2.1 1 7 (by decide)
    (fun j hj => by
      have hj0 : j = 0 := Nat.lt_one_iff.mp hj
      subst hj0
      rfl)
    (by rfl)

/-- The concrete task `taskLowEx` moved to in-progress, as the server would
return it from a PATCH. -/
def taskLowMovedEx : Task :=
  { taskLowEx with status := .inProgress }

/-- Counterexample to claim C5: when the injected simulated failure triggers,
`api.updateTask` rejects BEFORE the retry wrapper runs — even though the
wrapped attempt sequence would succeed immediately — so the store-level
operation fails and the error IS surfaced, contradicting the claim that the
simulated failure is absorbed by retry like any other transient failure. -/
theorem simulated_failure_not_absorbed :
    Api.updateTask true (fun _ => Except.ok taskLowMovedEx)
        = Except.error "Simulated API failure" ∧
    (Store.updateTaskStatus sampleState "a" .inProgress 5
        (Api.updateTask true (fun _ => Except.ok taskLowMovedEx))).error
      = some "Simulated API failure" ∧
    statusOf (Store.updateTaskStatus sampleState "a" .inProgress 5
        (Api.updateTask true (fun _ => Except.ok taskLowMovedEx))).tasks "a"
      = some .todo := by
  have h : Api.updateTask true (fun _ => Except.ok taskLowMovedEx)
      = Except.error "Simulated API failure" := rfl
  refine ⟨h, ?_, ?_⟩ <;> rw [h] <;> decide

/-- Claim C5 (amended): a failed attempt of the WRAPPED operation that is
followed by a successful attempt within the retry budget is invisible to the
store — when the simulated-failure branch is not taken, the mutation
succeeds, no error is surfaced and the new status is applied. -/
theorem wrapped_transient_failure_absorbed
    (s : TaskState) (id : String) (newStatus : Status) (now : Nat)
    (task t : Task) (e : String) (op : Nat → Except String Task)
    (hfind : s.tasks.find? (fun x => decide (x.id = id)) = some task)
    (h0 : op 0 = Except.error e) (h1 : op 1 = Except.ok t) :
    Api.updateTask false op = Except.ok t ∧
    (Store.updateTaskStatus s id newStatus now (Api.updateTask false op)).error
        = none ∧
    statusOf (Store.updateTaskStatus s id newStatus now
        (Api.updateTask false op)).tasks id = some newStatus := by
  have hid : task.id = id := by
    have h := List.find?_some hfind
    simpa using h
  have hret : Api.updateTask false op = Except.ok t := by
    simp only [Api.updateTask, if_false, Api.withRetry, Bool.false_eq_true]
    rw [Api.withRetryFrom]
    simp only [h0]
    rw [dif_pos (by norm_num [Api.MAX_RETRIES])]
    rw [Api.withRetryFrom]
    simp [h1]
  refine ⟨hret, ?_, ?_⟩
  · rw [hret]
    simp [Store.updateTaskStatus, hfind, taskReducer]
  · rw [hret]
    simp only [Store.updateTaskStatus, hfind, taskReducer, statusOf]
    rw [find?_map_id_preserving _ (updateTask_map_id id _ rfl), hfind]
    simp [mergeTask, hid]

/-- Witness for the amended transient-failure theorem: a concrete first
attempt fails, the second succeeds, the store sees a clean success. -/
theorem wrapped_transient_failure_absorbed_witness :
    Api.updateTask false
        (fun j => if j = 0 then Except.error "transient"
          else Except.ok taskLowMovedEx) = Except.ok taskLowMovedEx ∧
    (Store.updateTaskStatus sampleState "a" .inProgress 5
        (Api.updateTask false
          (fun j => if j = 0 then Except.error "transient"
            else Except.ok taskLowMovedEx))).error = none ∧
    statusOf (Store.updateTaskStatus sampleState "a" .inProgress 5
        (Api.updateTask false
          (fun j => if j = 0 then Except.error "transient"
            else Except.ok taskLowMovedEx))).tasks "a"
      = some .inProgress :=
  wrapped_transient_failure_absorbed sampleState "a" .inProgress 5
    taskLowEx taskLowMovedEx "transient"
    (fun j => if j = 0 then Except.error "transient" else Except.ok taskLowMovedEx)
    (by decide) rfl rfl

/-- Concrete create-form data. -/
def sampleCreateData : Api.CreateTaskData :=
  { title := "T", description := "D", priority := .low }

/-- Counterexample to claim C6: the POST body `api.createTask` submits is not
only `{title, description, priority}` — at a concrete input it carries a
client-generated id (`crypto.randomUUID()`), a client-set status `todo` and a
client-set createdAt, so the client and not the service assigns all three. -/
theorem createTask_payload_client_assigned_concrete :
    (Api.createTaskPayload sampleCreateData "uuid-1" "2026-01-02").id
        = some "uuid-1" ∧
    (Api.createTaskPayload sampleCreateData "uuid-1" "2026-01-02").id ≠ none ∧
    (Api.createTaskPayload sampleCreateData "uuid-1" "2026-01-02").status
        = some Status.todo ∧
    (Api.createTaskPayload sampleCreateData "uuid-1" "2026-01-02").createdAt
        = some "2026-01-02" := by
  decide

/-- Claim C6 (amended): the create payload carries the form's title,
description and priority unchanged, PLUS a client-assigned id (the generated
UUID), a client-assigned initial status `todo`, and a client-assigned
createdAt timestamp — the client, not the service, fixes all three. -/
theorem createTask_payload_client_fields (data : Api.CreateTaskData)
    (uuid now : String) :
    (Api.createTaskPayload data uuid now).title = data.title ∧
    (Api.createTaskPayload data uuid now).description = data.description ∧
    (Api.createTaskPayload data uuid now).priority = data.priority ∧
    (Api.createTaskPayload data uuid now).id = some uuid ∧
    (Api.createTaskPayload data uuid now).status = some Status.todo ∧
    (Api.createTaskPayload data uuid now).createdAt = some now :=
  ⟨rfl, rfl, rfl, rfl, rfl, rfl⟩

/-- Claim C8: creating a task (remote success returning `t`, whose fresh id
is not yet in the store) and then deleting that same task (remote success)
restores the task list — hence also its id-set — to its value before the
create. -/
theorem create_then_delete_round_trip (s : TaskState) (t : Task)
    (hfresh : ∀ x ∈ s.tasks, x.id ≠ t.id) :
    (Store.deleteTask (Store.createTask s (Except.ok t)) t.id
        (Except.ok Unit.unit)).tasks = s.tasks ∧
    (Store.deleteTask (Store.createTask s (Except.ok t)) t.id
        (Except.ok Unit.unit)).tasks.map Task.id = s.tasks.map Task.id := by
  have h1 : s.tasks.filter (fun x => !decide (x.id = t.id)) = s.tasks :=
    List.filter_eq_self.mpr (fun a ha => by simp [hfresh a ha])
  constructor <;>
    simp [Store.createTask, Store.deleteTask, taskReducer, h1]

/-- Witness for the round-trip theorem: creating and deleting the concrete
fresh task over the concrete one-task store. -/
theorem create_then_delete_round_trip_witness :
    (Store.deleteTask (Store.createTask sampleState (Except.ok taskHighEx))
        taskHighEx.id (Except.ok Unit.unit)).tasks = sampleState.tasks ∧
    (Store.deleteTask (Store.createTask sampleState (Except.ok taskHighEx))
        taskHighEx.id (Except.ok Unit.unit)).tasks.map Task.id
      = sampleState.tasks.map Task.id :=
  create_then_delete_round_trip sampleState taskHighEx (by decide)

end SprintBoard
